import Mathlib

/-!
Verification of the detector-node operations of a minimum-weight perfect
matching flood-fill decoder (`src/pymatching/fill_match/flooder/detector_node.cc`).

Pointers are embedded as `Option Nat` handles: `none` models a null pointer,
`some i` models a pointer to the object with arena index `i`.  Growth regions
live in an arena `RegionArena := Nat → GraphFillRegion`.  The `while` loop of
`compute_wrapped_radius` is embedded with explicit fuel; running out of fuel or
dereferencing a null pointer yields `none` (the C++ code would not terminate /
would have undefined behaviour there).
-/

namespace pm

/-- Modelled from the spec: the repository's `Varying32` type is declared in
`varying.h`, which is not present in the sources.  Per the spec it is "a radius
expressed as a linear function of the global simulation time:
`value(t) = intercept + rate * t`", supporting evaluation at a time and the
`y_intercept()` accessor used by `compute_wrapped_radius`. -/
structure Varying where
  y_intercept : Int
  slope : Int
deriving DecidableEq, Repr

/-- Evaluation of a varying quantity at a time: `value(t) = intercept + rate * t`. -/
def Varying.value (v : Varying) (t : Int) : Int :=
  v.y_intercept + v.slope * t

/-- Modelled from the spec: adding a scalar to a varying quantity
(`region_that_arrived_top->radius + compute_wrapped_radius()`) shifts the
intercept and keeps the growth rate. -/
def Varying.addInt (v : Varying) (x : Int) : Varying :=
  ⟨v.y_intercept + x, v.slope⟩

/-- The value `Varying32{0}` returned by `local_radius` for an unowned node:
zero intercept, zero rate. -/
def Varying.zero : Varying := ⟨0, 0⟩

/-- Modelled from the spec: the growth region (blossom-tree node) type is
declared in `graph_fill_region.h`, which is not present in the sources.  The
fields used by `detector_node.cc` are its radius (a varying quantity) and its
`blossom_parent` pointer (null at the root of the blossom hierarchy). -/
structure GraphFillRegion where
  radius : Varying
  blossom_parent : Option Nat
deriving DecidableEq, Repr

/-- The arena of growth regions; a region pointer `some i` dereferences to
`arena i`. -/
def RegionArena : Type := Nat → GraphFillRegion

/-- Detector node, with the fields read and written by `detector_node.cc`.
The adjacency fields (`neighbors` and, modelled from the spec, the associated
edge data `neighbor_weights` / `neighbor_observables`) are declared in
`detector_node.h`, which is not present in the sources; a neighbor entry is a
node pointer (`none` models a null boundary pointer). -/
structure DetectorNode where
  observables_crossed_from_source : Nat
  reached_from_source : Option Nat
  radius_of_arrival : Int
  region_that_arrived : Option Nat
  region_that_arrived_top : Option Nat
  accumulated_radius_cached : Int
  node_event_tracker : List Nat
  neighbors : List (Option Nat)
  neighbor_weights : List Int
  neighbor_observables : List Nat
deriving DecidableEq, Repr

/-- The `while (r != region_that_arrived_top)` loop of
`compute_wrapped_radius`, with explicit fuel, instrumented to also return the
number of loop iterations performed.  `none` models non-termination (fuel
exhausted) or a null-pointer dereference. -/
def wrappedRadiusWalk (arena : RegionArena) (top : Option Nat) :
    Nat → Option Nat → Option (Int × Nat)
  | 0, _ => none
  | fuel + 1, r =>
    if r = top then
      some (0, 0)
    else
      match r with
      | none => none
      | some rid =>
        (wrappedRadiusWalk arena top fuel (arena rid).blossom_parent).map
          (fun p => (((arena rid).radius).y_intercept + p.1, p.2 + 1))

/-- `DetectorNode::compute_wrapped_radius`: 0 when `reached_from_source` is
null; otherwise the sum of the `y_intercept`s of the regions on the
`blossom_parent` chain from `region_that_arrived` (exclusive of
`region_that_arrived_top`), minus `radius_of_arrival`. -/
def DetectorNode.compute_wrapped_radius (node : DetectorNode)
    (arena : RegionArena) (fuel : Nat) : Option Int :=
  if node.reached_from_source = none then
    some 0
  else
    (wrappedRadiusWalk arena node.region_that_arrived_top fuel
        node.region_that_arrived).map
      (fun p => p.1 - node.radius_of_arrival)

/-- `DetectorNode::local_radius`: `Varying32{0}` when
`region_that_arrived_top` is null, otherwise
`region_that_arrived_top->radius + compute_wrapped_radius()`. -/
def DetectorNode.local_radius (node : DetectorNode) (arena : RegionArena)
    (fuel : Nat) : Option Varying :=
  match node.region_that_arrived_top with
  | none => some Varying.zero
  | some t =>
    (node.compute_wrapped_radius arena fuel).map
      (fun w => ((arena t).radius).addInt w)

/-- `DetectorNode::has_same_owner_as`: pointer equality of the two nodes'
`region_that_arrived_top` fields. -/
def DetectorNode.has_same_owner_as (node other : DetectorNode) : Bool :=
  node.region_that_arrived_top = other.region_that_arrived_top

/-- `DetectorNode::reset`: zeroes the ownership fields and clears the node's
event tracker; the adjacency fields are not written. -/
def DetectorNode.reset (node : DetectorNode) : DetectorNode :=
  { node with
    observables_crossed_from_source := 0
    reached_from_source := none
    radius_of_arrival := 0
    region_that_arrived := none
    region_that_arrived_top := none
    accumulated_radius_cached := 0
    node_event_tracker := [] }

/-- The scan of `DetectorNode::index_of_neighbor`, carrying the running index
`k`; reaching the end of the list models
`throw std::invalid_argument("Failed to find neighbor.")`. -/
def indexOfNeighborFrom (target : Option Nat) :
    List (Option Nat) → Nat → Except String Nat
  | [], _ => Except.error "Failed to find neighbor."
  | n :: rest, k =>
    if n = target then Except.ok k else indexOfNeighborFrom target rest (k + 1)

/-- `DetectorNode::index_of_neighbor`: linear scan of the adjacency list for a
pointer equal to `target`. -/
def DetectorNode.index_of_neighbor (node : DetectorNode) (target : Option Nat) :
    Except String Nat :=
  indexOfNeighborFrom target node.neighbors 0

/-- The spec's ownership invariant: `region_that_arrived_top` is non-null iff
`reached_from_source` is non-null. -/
def OwnershipInv (node : DetectorNode) : Prop :=
  node.region_that_arrived_top ≠ none ↔ node.reached_from_source ≠ none

instance (node : DetectorNode) : Decidable (OwnershipInv node) := by
  unfold OwnershipInv
  infer_instance

/-- A freshly constructed, never-activated detector node with the given
adjacency (the `DetectorNode` constructor lives in `detector_node.h`, not in
the sources; modelled from the spec's "freshly constructed, never-activated
node": null tree pointers, zero radii, zero observables, no pending events). -/
def freshNode (neighbors : List (Option Nat)) (neighbor_weights : List Int)
    (neighbor_observables : List Nat) : DetectorNode :=
  { observables_crossed_from_source := 0
    reached_from_source := none
    radius_of_arrival := 0
    region_that_arrived := none
    region_that_arrived_top := none
    accumulated_radius_cached := 0
    node_event_tracker := []
    neighbors := neighbors
    neighbor_weights := neighbor_weights
    neighbor_observables := neighbor_observables }

/-- A `blossom_parent` chain: `isChain arena start ids top` holds when walking
from the region pointer `start` by `blossom_parent` visits exactly the regions
`ids` and then reaches the pointer `top`. -/
def isChain (arena : RegionArena) :
    Option Nat → List Nat → Option Nat → Bool
  | start, [], top => decide (start = top)
  | start, rid :: rest, top =>
    decide (start = some rid) && decide (start ≠ top) &&
      isChain arena ((arena rid).blossom_parent) rest top

/-- Correctness of the scan `indexOfNeighborFrom`: a present target is found
at its list position (offset by the running index), an absent target yields
the invalid-argument error. -/
theorem indexOfNeighborFrom_spec (target : Option Nat) :
    ∀ (l : List (Option Nat)) (k : Nat),
      (target ∈ l →
        ∃ j, indexOfNeighborFrom target l k = Except.ok (k + j) ∧
          l.get? j = some target) ∧
      (target ∉ l →
        indexOfNeighborFrom target l k =
          Except.error "Failed to find neighbor.") := by
  intro l
  induction l with
  | nil =>
    intro k
    refine ⟨fun h => absurd h (List.not_mem_nil target), fun _ => rfl⟩
  | cons n rest ih =>
    intro k
    constructor
    · intro hmem
      by_cases hn : n = target
      · exact ⟨0, by simp [indexOfNeighborFrom, hn], by simp [hn]⟩
      · have hmem' : target ∈ rest := by
          rcases List.mem_cons.mp hmem with h | h
          · exact absurd h.symm hn
          · exact h
        obtain ⟨j, hj1, hj2⟩ := (ih (k + 1)).1 hmem'
        refine ⟨j + 1, ?_, by simpa using hj2⟩
        simp only [indexOfNeighborFrom]
        rw [if_neg hn, hj1]
        congr 1
        omega
    · intro hmem
      have hn : ¬ n = target := fun h => hmem (by simp [h])
      have hrest : target ∉ rest := fun h => hmem (List.mem_cons_of_mem _ h)
      simp only [indexOfNeighborFrom]
      rw [if_neg hn]
      exact (ih (k + 1)).2 hrest

/-- Running the wrapped-radius walk along a `blossom_parent` chain `ids` with
enough fuel terminates, returns the sum of the chain's frozen intercepts, and
performs exactly `ids.length` loop iterations. -/
theorem isChain_walk (arena : RegionArena) (top : Option Nat) :
    ∀ (ids : List Nat) (fuel : Nat) (start : Option Nat),
      isChain arena start ids top = true → ids.length < fuel →
      wrappedRadiusWalk arena top fuel start =
        some ((ids.map fun i => ((arena i).radius).y_intercept).sum,
          ids.length) := by
  intro ids
  induction ids with
  | nil =>
    intro fuel start hchain hfuel
    match fuel with
    | 0 => simp at hfuel
    | f + 1 =>
      have hst : start = top := by simpa [isChain] using hchain
      simp [wrappedRadiusWalk, hst]
  | cons rid rest ih =>
    intro fuel start hchain hfuel
    match fuel with
    | 0 => simp at hfuel
    | f + 1 =>
      simp only [isChain, Bool.and_eq_true, decide_eq_true_eq] at hchain
      obtain ⟨⟨h1, h2⟩, h3⟩ := hchain
      have hlen : rest.length < f := by
        simp only [List.length_cons] at hfuel
        omega
      have hrec := ih f ((arena rid).blossom_parent) h3 hlen
      subst h1
      simp [wrappedRadiusWalk, h2, hrec]

/-- A concrete arena for witnesses: regions 0 and 1 are frozen blossom
children with intercepts 5 and 3, region 2 is a live growing root. -/
def demoArena : RegionArena := fun i =>
  if i = 0 then ⟨⟨5, 0⟩, some 1⟩
  else if i = 1 then ⟨⟨3, 0⟩, some 2⟩
  else ⟨⟨-4, 1⟩, none⟩

/-- A concrete reached node for witnesses: arrived at radius 2, immediate
region 0, top region 2, three neighbors. -/
def demoNode : DetectorNode :=
  { observables_crossed_from_source := 0
    reached_from_source := some 7
    radius_of_arrival := 2
    region_that_arrived := some 0
    region_that_arrived_top := some 2
    accumulated_radius_cached := 0
    node_event_tracker := []
    neighbors := [some 1, none, some 3]
    neighbor_weights := [10, 5, 7]
    neighbor_observables := [1, 0, 2] }

/-- A concrete never-activated node for witnesses. -/
def freshDemo : DetectorNode := freshNode [some 1] [10] [1]

/-- C1: for every reached detector node whose blossom-ancestor chain from its
immediate region to its top region is `ids`, `local_radius` returns the live
top-level region's radius (still a varying quantity) shifted by the sum of the
intermediate ancestors' frozen y-intercepts minus the radius recorded at
arrival. -/
theorem local_radius_reached_spec (arena : RegionArena) (node : DetectorNode)
    (ids : List Nat) (t : Nat) (fuel : Nat)
    (hreach : node.reached_from_source ≠ none)
    (htop : node.region_that_arrived_top = some t)
    (hchain : isChain arena node.region_that_arrived ids (some t) = true)
    (hfuel : ids.length < fuel) :
    node.local_radius arena fuel =
      some (((arena t).radius).addInt
        ((ids.map fun i => ((arena i).radius).y_intercept).sum -
          node.radius_of_arrival)) := by
  have hwalk := isChain_walk arena (some t) ids fuel node.region_that_arrived
    hchain hfuel
  simp [DetectorNode.local_radius, DetectorNode.compute_wrapped_radius, htop,
    hreach, hwalk]

theorem local_radius_reached_spec_witness :
    demoNode.reached_from_source ≠ none ∧
    demoNode.region_that_arrived_top = some 2 ∧
    isChain demoArena demoNode.region_that_arrived [0, 1] (some 2) = true ∧
    ([0, 1] : List Nat).length < 3 ∧
    demoNode.local_radius demoArena 3 =
      some (((demoArena 2).radius).addInt
        ((([0, 1] : List Nat).map
            fun i => ((demoArena i).radius).y_intercept).sum -
          demoNode.radius_of_arrival)) :=
  ⟨by decide, by decide, by decide, by decide,
    local_radius_reached_spec demoArena demoNode [0, 1] 2 3 (by decide)
      (by decide) (by decide) (by decide)⟩

/-- C2: `index_of_neighbor` returns the adjacency-list position of every
actual neighbor and fails with the invalid-argument error for any
non-neighbor. -/
theorem index_of_neighbor_spec (node : DetectorNode) (target : Option Nat) :
    (target ∈ node.neighbors →
      ∃ k, node.index_of_neighbor target = Except.ok k ∧
        node.neighbors.get? k = some target) ∧
    (target ∉ node.neighbors →
      node.index_of_neighbor target =
        Except.error "Failed to find neighbor.") := by
  constructor
  · intro hmem
    obtain ⟨j, hj1, hj2⟩ :=
      (indexOfNeighborFrom_spec target node.neighbors 0).1 hmem
    exact ⟨j, by simpa using hj1, hj2⟩
  · intro hmem
    exact (indexOfNeighborFrom_spec target node.neighbors 0).2 hmem

theorem index_of_neighbor_spec_witness :
    ((some 1 : Option Nat) ∈ demoNode.neighbors ∧
      ∃ k, demoNode.index_of_neighbor (some 1) = Except.ok k ∧
        demoNode.neighbors.get? k = some (some 1)) ∧
    ((some 9 : Option Nat) ∉ demoNode.neighbors ∧
      demoNode.index_of_neighbor (some 9) =
        Except.error "Failed to find neighbor.") :=
  ⟨⟨by decide, (index_of_neighbor_spec demoNode (some 1)).1 (by decide)⟩,
    ⟨by decide, (index_of_neighbor_spec demoNode (some 9)).2 (by decide)⟩⟩

/-- C3: `has_same_owner_as` returns true exactly when the two nodes'
top-level owning regions are identical. -/
theorem has_same_owner_as_spec (node other : DetectorNode) :
    node.has_same_owner_as other = true ↔
      node.region_that_arrived_top = other.region_that_arrived_top := by
  simp [DetectorNode.has_same_owner_as]

theorem has_same_owner_as_spec_witness :
    demoNode.has_same_owner_as demoNode = true :=
  (has_same_owner_as_spec demoNode demoNode).mpr rfl

/-- C4: a node that has not been reached by any growth front (null
`reached_from_source`, under the ownership invariant) has the zero sentinel
local radius. -/
theorem local_radius_unreached_spec (node : DetectorNode) (arena : RegionArena)
    (fuel : Nat) (hinv : OwnershipInv node)
    (hreach : node.reached_from_source = none) :
    node.local_radius arena fuel = some Varying.zero := by
  have htop : node.region_that_arrived_top = none := by
    by_contra h
    exact (hinv.mp h) hreach
  simp [DetectorNode.local_radius, htop]

theorem local_radius_unreached_spec_witness :
    OwnershipInv freshDemo ∧ freshDemo.reached_from_source = none ∧
      freshDemo.local_radius demoArena 3 = some Varying.zero :=
  ⟨by decide, by decide,
    local_radius_unreached_spec freshDemo demoArena 3 (by decide) (by decide)⟩

/-- C5: `reset` restores any node to a state equal, hence observably
identical under every node query, to a freshly constructed never-activated
node with the same adjacency: null tree pointers, zero radii and observables,
cleared event tracker, zero sentinel local radius. -/
theorem reset_restores_fresh_state (node : DetectorNode) (arena : RegionArena)
    (fuel : Nat) (other : DetectorNode) :
    node.reset =
      freshNode node.neighbors node.neighbor_weights node.neighbor_observables ∧
    node.reset.reached_from_source = none ∧
    node.reset.region_that_arrived = none ∧
    node.reset.region_that_arrived_top = none ∧
    node.reset.radius_of_arrival = 0 ∧
    node.reset.accumulated_radius_cached = 0 ∧
    node.reset.observables_crossed_from_source = 0 ∧
    node.reset.node_event_tracker = [] ∧
    node.reset.local_radius arena fuel = some Varying.zero ∧
    node.reset.compute_wrapped_radius arena fuel = some 0 ∧
    node.reset.has_same_owner_as other =
      (freshNode node.neighbors node.neighbor_weights
        node.neighbor_observables).has_same_owner_as other :=
  ⟨rfl, rfl, rfl, rfl, rfl, rfl, rfl, rfl, rfl, rfl, rfl⟩

/-- C7: `reset` establishes the ownership invariant by nulling both pointers,
and under the invariant `local_radius` and `compute_wrapped_radius` are
consistent: both give the unreached sentinel on an unreached node, and on an
owned node `local_radius` is the top region's radius shifted by the wrapped
radius. -/
theorem ownership_invariant_spec (node : DetectorNode) (arena : RegionArena)
    (fuel : Nat) :
    OwnershipInv node.reset ∧
    node.reset.reached_from_source = none ∧
    node.reset.region_that_arrived_top = none ∧
    (OwnershipInv node → node.reached_from_source = none →
      node.local_radius arena fuel = some Varying.zero ∧
      node.compute_wrapped_radius arena fuel = some 0) ∧
    (OwnershipInv node → ∀ t, node.region_that_arrived_top = some t →
      node.local_radius arena fuel =
        (node.compute_wrapped_radius arena fuel).map
          (fun w => ((arena t).radius).addInt w)) := by
  refine ⟨by simp [OwnershipInv, DetectorNode.reset], rfl, rfl, ?_, ?_⟩
  · intro hinv hreach
    have htop : node.region_that_arrived_top = none := by
      by_contra h
      exact (hinv.mp h) hreach
    exact ⟨by simp [DetectorNode.local_radius, htop],
      by simp [DetectorNode.compute_wrapped_radius, hreach]⟩
  · intro _ t htop
    simp [DetectorNode.local_radius, htop]

theorem ownership_invariant_spec_witness :
    (OwnershipInv freshDemo ∧ freshDemo.reached_from_source = none ∧
      freshDemo.local_radius demoArena 1 = some Varying.zero ∧
      freshDemo.compute_wrapped_radius demoArena 1 = some 0) ∧
    (OwnershipInv demoNode ∧ demoNode.region_that_arrived_top = some 2 ∧
      demoNode.local_radius demoArena 3 =
        (demoNode.compute_wrapped_radius demoArena 3).map
          (fun w => ((demoArena 2).radius).addInt w)) ∧
    OwnershipInv demoNode.reset :=
  ⟨⟨by decide, by decide,
      ((ownership_invariant_spec freshDemo demoArena 1).2.2.2.1 (by decide)
        (by decide)).1,
      ((ownership_invariant_spec freshDemo demoArena 1).2.2.2.1 (by decide)
        (by decide)).2⟩,
    ⟨by decide, by decide,
      (ownership_invariant_spec demoNode demoArena 3).2.2.2.2 (by decide) 2
        (by decide)⟩,
    (ownership_invariant_spec demoNode demoArena 3).1⟩

/-- C8: for a reached node whose `blossom_parent` chain from its immediate
region to its top region is `ids`, the ancestor walk terminates with any fuel
exceeding the chain length (so it is bounded by blossom nesting depth, not
graph size), and it performs exactly `ids.length` loop iterations. -/
theorem wrapped_radius_walk_terminates (arena : RegionArena)
    (node : DetectorNode) (ids : List Nat) (fuel : Nat)
    (hreach : node.reached_from_source ≠ none)
    (hchain : isChain arena node.region_that_arrived ids
      node.region_that_arrived_top = true)
    (hfuel : ids.length < fuel) :
    ∃ total,
      wrappedRadiusWalk arena node.region_that_arrived_top fuel
          node.region_that_arrived = some (total, ids.length) ∧
      node.compute_wrapped_radius arena fuel =
        some (total - node.radius_of_arrival) := by
  have hwalk := isChain_walk arena node.region_that_arrived_top ids fuel
    node.region_that_arrived hchain hfuel
  refine ⟨(ids.map fun i => ((arena i).radius).y_intercept).sum, hwalk, ?_⟩
  simp [DetectorNode.compute_wrapped_radius, hreach, hwalk]

theorem wrapped_radius_walk_terminates_witness :
    demoNode.reached_from_source ≠ none ∧
    isChain demoArena demoNode.region_that_arrived [0, 1]
      demoNode.region_that_arrived_top = true ∧
    ([0, 1] : List Nat).length < 3 ∧
    ∃ total,
      wrappedRadiusWalk demoArena demoNode.region_that_arrived_top 3
          demoNode.region_that_arrived = some (total, ([0, 1] : List Nat).length) ∧
      demoNode.compute_wrapped_radius demoArena 3 =
        some (total - demoNode.radius_of_arrival) :=
  ⟨by decide, by decide, by decide,
    wrapped_radius_walk_terminates demoArena demoNode [0, 1] 3 (by decide)
      (by decide) (by decide)⟩

/-- C9: two unreached nodes (null `reached_from_source`, hence under the
ownership invariant null `region_that_arrived_top` on both) are reported as
having the same owner. -/
theorem has_same_owner_as_unreached_true (node other : DetectorNode)
    (hinv1 : OwnershipInv node) (hinv2 : OwnershipInv other)
    (h1 : node.reached_from_source = none)
    (h2 : other.reached_from_source = none) :
    node.has_same_owner_as other = true := by
  have htop1 : node.region_that_arrived_top = none := by
    by_contra h
    exact (hinv1.mp h) h1
  have htop2 : other.region_that_arrived_top = none := by
    by_contra h
    exact (hinv2.mp h) h2
  simp [DetectorNode.has_same_owner_as, htop1, htop2]

theorem has_same_owner_as_unreached_true_witness :
    OwnershipInv freshDemo ∧ OwnershipInv demoNode.reset ∧
    freshDemo.reached_from_source = none ∧
    demoNode.reset.reached_from_source = none ∧
    freshDemo.has_same_owner_as demoNode.reset = true :=
  ⟨by decide, by decide, by decide, by decide,
    has_same_owner_as_unreached_true freshDemo demoNode.reset (by decide)
      (by decide) (by decide) (by decide)⟩

/-- C10: `reset` leaves the adjacency list and the associated edge data
unchanged, so `index_of_neighbor` returns the same result before and after a
reset. -/
theorem reset_preserves_adjacency (node : DetectorNode) :
    node.reset.neighbors = node.neighbors ∧
    node.reset.neighbor_weights = node.neighbor_weights ∧
    node.reset.neighbor_observables = node.neighbor_observables ∧
    ∀ target, node.reset.index_of_neighbor target =
      node.index_of_neighbor target :=
  ⟨rfl, rfl, rfl, fun _ => rfl⟩

/-- Modelled from the spec: one step of a detector node's growth history —
either the global time advances (roots grow implicitly) or the node's current
top region is absorbed into a newly created blossom. -/
inductive GrowthStep where
  | advance (dt : Nat)
  | absorb
deriving DecidableEq, Repr

/-- State of the nested-blossom simulation for one node: the global time, the
number of allocated regions, the region arena, and the arena index of the
node's current top-level region. -/
structure SimState where
  time : Int
  numRegions : Nat
  regions : RegionArena
  nodeTop : Nat

/-- A varying quantity growing at rate 1 with value zero at time `t`. -/
def growingZeroAt (t : Int) : Varying := ⟨-t, 1⟩

/-- Modelled from the spec: advancing the global time advances every root
region's radius implicitly; freeze-on-absorb sets the absorbed root's radius
to its current value with rate 0 and its `blossom_parent` to the newly
created blossom, whose radius starts at zero distance, growing at rate 1. -/
def stepSim (S : SimState) : GrowthStep → SimState
  | GrowthStep.advance dt => { S with time := S.time + (dt : Int) }
  | GrowthStep.absorb =>
    { time := S.time
      numRegions := S.numRegions + 1
      regions := fun i =>
        if i = S.nodeTop then
          { radius := ⟨((S.regions S.nodeTop).radius).value S.time, 0⟩
            blossom_parent := some S.numRegions }
        else if i = S.numRegions then
          { radius := growingZeroAt S.time
            blossom_parent := none }
        else S.regions i
      nodeTop := S.numRegions }

/-- Initial simulation state at activation time `t0`: a single root region
growing from zero radius. -/
def initSim (t0 : Int) : SimState :=
  { time := t0
    numRegions := 1
    regions := fun i =>
      if i = 0 then { radius := growingZeroAt t0, blossom_parent := none }
      else { radius := ⟨0, 0⟩, blossom_parent := none }
    nodeTop := 0 }

/-- Run a growth history from activation time `t0`. -/
def runSim (t0 : Int) (hist : List GrowthStep) : SimState :=
  hist.foldl stepSim (initSim t0)

/-- The detector node claimed by region 0 at radius `a`, as it stands in
simulation state `S` (its top pointer tracks the current top region). -/
def simNode (S : SimState) (a : Int) : DetectorNode :=
  { observables_crossed_from_source := 0
    reached_from_source := some 0
    radius_of_arrival := a
    region_that_arrived := some 0
    region_that_arrived_top := some S.nodeTop
    accumulated_radius_cached := 0
    node_event_tracker := []
    neighbors := []
    neighbor_weights := []
    neighbor_observables := [] }

/-- Modelled from the spec: the directly simulated "flat" radius of a single
region that keeps growing at rate 1 through the whole history with no blossom
nesting — only time advances contribute. -/
def flatValue : List GrowthStep → Int
  | [] => 0
  | GrowthStep.advance dt :: rest => (dt : Int) + flatValue rest
  | GrowthStep.absorb :: rest => flatValue rest

/-- Modelled from the spec: the flat effective radius at a node that arrived
when the flat region's radius was `a`. -/
def flatRadius (hist : List GrowthStep) (a : Int) : Int := flatValue hist - a

/-- Sum of the frozen intercepts of the node's strict blossom ancestors. -/
def chainSum (S : SimState) : Int :=
  ((List.range S.nodeTop).map fun j => ((S.regions j).radius).y_intercept).sum

/-- Invariant of the nested simulation: regions `0, …, nodeTop` form a
`blossom_parent` chain, the accumulated intercepts track the activation time,
and the current root grows at rate 1. -/
def SimInv (S : SimState) (t0 : Int) : Prop :=
  S.numRegions = S.nodeTop + 1 ∧
  (∀ j, j < S.nodeTop → (S.regions j).blossom_parent = some (j + 1)) ∧
  chainSum S + ((S.regions S.nodeTop).radius).y_intercept = -t0 ∧
  ((S.regions S.nodeTop).radius).slope = 1

theorem simInv_init (t0 : Int) : SimInv (initSim t0) t0 := by
  refine ⟨rfl, ?_, ?_, rfl⟩
  · intro j hj
    exact absurd hj (Nat.not_lt_zero j)
  · simp [chainSum, initSim, growingZeroAt]

theorem chainSum_absorb (S : SimState) (h1 : S.numRegions = S.nodeTop + 1) :
    chainSum (stepSim S GrowthStep.absorb) =
      chainSum S + ((S.regions S.nodeTop).radius).value S.time := by
  unfold chainSum
  have hTop : (stepSim S GrowthStep.absorb).nodeTop = S.nodeTop + 1 := by
    simp [stepSim, h1]
  rw [hTop, List.range_succ, List.map_append, List.sum_append]
  have hmap : (List.range S.nodeTop).map
      (fun j =>
        (((stepSim S GrowthStep.absorb).regions j).radius).y_intercept) =
      (List.range S.nodeTop).map
        (fun j => ((S.regions j).radius).y_intercept) := by
    apply List.map_congr_left
    intro j hj
    have hjlt : j < S.nodeTop := List.mem_range.mp hj
    have hje : j ≠ S.nodeTop := by omega
    have hjn : j ≠ S.numRegions := by omega
    simp [stepSim, hje, hjn]
  rw [hmap]
  simp [stepSim]

theorem simInv_step (S : SimState) (t0 : Int) (s : GrowthStep)
    (h : SimInv S t0) : SimInv (stepSim S s) t0 := by
  obtain ⟨h1, h2, h3, h4⟩ := h
  cases s with
  | advance dt => exact ⟨h1, h2, h3, h4⟩
  | absorb =>
    have hne : S.numRegions ≠ S.nodeTop := by omega
    refine ⟨rfl, ?_, ?_, ?_⟩
    · intro j hj
      simp only [stepSim] at hj ⊢
      by_cases hje : j = S.nodeTop
      · subst hje
        simp [h1]
      · have hjlt : j < S.nodeTop := by omega
        have hjn : j ≠ S.numRegions := by omega
        simp only [if_neg hje, if_neg hjn]
        exact h2 j hjlt
    · have hroot : ((stepSim S GrowthStep.absorb).regions
          ((stepSim S GrowthStep.absorb).nodeTop)).radius =
          growingZeroAt S.time := by
        simp [stepSim, hne]
      rw [chainSum_absorb S h1, hroot]
      simp only [growingZeroAt, Varying.value]
      rw [h4]
      linarith
    · have hroot : ((stepSim S GrowthStep.absorb).regions
          ((stepSim S GrowthStep.absorb).nodeTop)).radius =
          growingZeroAt S.time := by
        simp [stepSim, hne]
      rw [hroot]
      rfl

theorem simInv_run (t0 : Int) :
    ∀ (hist : List GrowthStep) (S : SimState),
      SimInv S t0 → SimInv (hist.foldl stepSim S) t0 := by
  intro hist
  induction hist with
  | nil => exact fun S h => h
  | cons s rest ih => exact fun S h => ih _ (simInv_step S t0 s h)

theorem foldl_stepSim_time :
    ∀ (hist : List GrowthStep) (S : SimState),
      (hist.foldl stepSim S).time = S.time + flatValue hist := by
  intro hist
  induction hist with
  | nil =>
    intro S
    simp [flatValue]
  | cons s rest ih =>
    intro S
    cases s with
    | advance dt =>
      simp only [List.foldl_cons, flatValue]
      rw [ih]
      simp only [stepSim]
      ring
    | absorb =>
      simp only [List.foldl_cons, flatValue]
      rw [ih]
      simp [stepSim]

theorem isChain_of_parents (arena : RegionArena) (top : Nat)
    (hpar : ∀ j, j < top → (arena j).blossom_parent = some (j + 1)) :
    ∀ (d j : Nat), j + d = top →
      isChain arena (some j) (List.range' j d) (some top) = true := by
  intro d
  induction d with
  | zero =>
    intro j hj
    have hjt : j = top := by omega
    subst hjt
    simp [isChain]
  | succ d ih =>
    intro j hj
    rw [List.range'_succ]
    have hjlt : j < top := by omega
    simp only [isChain, Bool.and_eq_true, decide_eq_true_eq]
    refine ⟨⟨trivial, ?_⟩, ?_⟩
    · simp only [ne_eq, Option.some.injEq]
      omega
    · rw [hpar j hjlt]
      exact ih (j + 1) (by omega)

theorem localRadius_of_simInv (S : SimState) (t0 a : Int) (h : SimInv S t0) :
    ((simNode S a).local_radius S.regions (S.nodeTop + 2)).map
      (fun v => v.value S.time) = some (S.time - t0 - a) := by
  obtain ⟨h1, h2, h3, h4⟩ := h
  have hchain : isChain S.regions (some 0) (List.range S.nodeTop)
      (some S.nodeTop) = true := by
    have hc := isChain_of_parents S.regions S.nodeTop h2 S.nodeTop 0 (by omega)
    simpa [List.range_eq_range'] using hc
  have hwalk := isChain_walk S.regions (some S.nodeTop)
    (List.range S.nodeTop) (S.nodeTop + 2) (some 0) hchain (by simp)
  have key : (((S.regions S.nodeTop).radius).y_intercept +
        (((List.range S.nodeTop).map
            fun i => ((S.regions i).radius).y_intercept).sum - a)) +
      ((S.regions S.nodeTop).radius).slope * S.time = S.time - t0 - a := by
    have h3' := h3
    unfold chainSum at h3'
    rw [h4]
    linarith
  simp only [simNode, DetectorNode.local_radius,
    DetectorNode.compute_wrapped_radius]
  rw [hwalk]
  simpa [Varying.addInt, Varying.value] using key

/-- C6: radius accounting is loop-invariant across blossom nesting: for every
growth history (any number of nested blossom absorptions interleaved with
time advances), the node's `local_radius` computed via the ancestor walk,
evaluated at the current time, equals the directly simulated flat radius
computed with no blossom nesting. -/
theorem local_radius_flat_equiv (t0 a : Int) (hist : List GrowthStep) :
    ((simNode (runSim t0 hist) a).local_radius (runSim t0 hist).regions
        ((runSim t0 hist).nodeTop + 2)).map
      (fun v => v.value (runSim t0 hist).time) = some (flatRadius hist a) := by
  have hinv : SimInv (runSim t0 hist) t0 :=
    simInv_run t0 hist (initSim t0) (simInv_init t0)
  have htime : (runSim t0 hist).time = t0 + flatValue hist :=
    foldl_stepSim_time hist (initSim t0)
  rw [localRadius_of_simInv (runSim t0 hist) t0 a hinv, htime]
  simp only [flatRadius, Option.some.injEq]
  ring

end pm
